import Mathlib

/-!
Shallow embedding of `removedeadservers.py` (CosmicDNS): a filter that probes a
list of DNS server addresses and writes back the lines of the responsive ones,
sorted lexicographically.

The embedding models:
* `parse_ip_from_line` — the regex `^([0-9a-fA-F:.]+)\s+` plus the `.`/`:` check;
* the line-processing loop of `main` (strip, skip blanks and `#` comments,
  collect candidates, warn on unparsable lines);
* `test_dns_server` — the try/except over the DNS resolve call, as a total
  function of the classified resolve outcome;
* the thread-pool fan-out (`mkFutures`: one future per candidate, submitted in
  input order) and the `as_completed` aggregation loop (`aggregate`, folded over
  an arbitrary permutation of the futures);
* the final `responsive_servers.sort()` (`pySort`: Python sorts strings
  lexicographically by code point; the sorted value is order-insensitive, so a
  standard insertion sort models `list.sort` extensionally) and the output-file
  write, and `main`'s exit codes.

Strings are handled at the `List Char` level (code points), matching Python
`str` semantics; whitespace is modelled as the ASCII whitespace characters,
which is what Python's `\s` and `str.strip()` recognise on ASCII input.
-/

/-- ASCII whitespace: the characters matched by Python's `\s` and removed by
`str.strip()` on ASCII text. -/
def isPySpace (c : Char) : Bool :=
  c = ' ' || c = '\t' || c = '\n' || c = '\x0d' || c = '\x0b' || c = '\x0c'

/-- The character class `[0-9a-fA-F:.]` of the regex in `parse_ip_from_line`. -/
def isIpChar (c : Char) : Bool :=
  ('0' ≤ c && c ≤ '9') || ('a' ≤ c && c ≤ 'f') || ('A' ≤ c && c ≤ 'F') ||
    c = ':' || c = '.'

/-- Python `str.strip()`: remove leading and trailing whitespace. -/
def pyStrip (s : String) : String :=
  String.mk (((s.data.dropWhile isPySpace).reverse.dropWhile isPySpace).reverse)

/-- Python `line.startswith('#')`. -/
def startsWithHash (s : String) : Bool :=
  match s.data with
  | [] => false
  | c :: _ => c = '#'

/-- The match `re.match(r'^([0-9a-fA-F:.]+)\s+', line)`, returning group 1.
The class `[0-9a-fA-F:.]` and `\s` are disjoint, so the greedy match is exact:
the regex matches iff the maximal class-prefix is nonempty and the character
right after it is whitespace, and group 1 is that maximal prefix. -/
def regexIpMatch (cs : List Char) : Option (List Char) :=
  let tok := cs.takeWhile isIpChar
  match cs.dropWhile isIpChar with
  | [] => none
  | c :: _ => if tok.isEmpty then none else if isPySpace c then some tok else none

/-- `parse_ip_from_line(line)`: regex match, then accept group 1 as the address
iff it contains a `.` or a `:`; otherwise `None`. -/
def parse_ip_from_line (line : String) : Option String :=
  match regexIpMatch line.data with
  | some tok =>
      if tok.contains '.' || tok.contains ':' then some (String.mk tok) else none
  | none => none

/-- A parsed server entry: `{'ip': ip, 'original_line': line}` (line 108 of the
source; `line` there is the stripped line). -/
structure Candidate where
  ip : String
  original_line : String
deriving DecidableEq, Repr

/-- One iteration of the input-reading loop (lines 101–110): strip, skip blank
lines and comments, otherwise parse; `some c` when the line yields a candidate. -/
def lineCandidate (raw : String) : Option Candidate :=
  let line := pyStrip raw
  if line.data.isEmpty || startsWithHash line then none
  else
    match parse_ip_from_line line with
    | some ip => some ⟨ip, line⟩
    | none => none

/-- One iteration of the input-reading loop, warning side: `some (n, line)` when
the loop prints the could-not-parse warning for 1-based line number `n`. -/
def lineWarning (i : Nat) (raw : String) : Option (Nat × String) :=
  let line := pyStrip raw
  if line.data.isEmpty || startsWithHash line then none
  else
    match parse_ip_from_line line with
    | some _ => none
    | none => some (i + 1, line)

/-- `servers_to_test` built from the input lines, in input order. -/
def parseServers (lines : List String) : List Candidate :=
  lines.filterMap lineCandidate

/-- The parse warnings emitted while reading the input, with 1-based line numbers. -/
def parseWarnings (lines : List String) : List (Nat × String) :=
  lines.enum.filterMap fun p => lineWarning p.1 p.2

/-- Classified outcome of the one `resolver.resolve(query_domain, 'A')` call
(the Probe Client capability boundary): either it returns an answer set of
`count` records with `withinTimeout` recording the elapsed-time check
`(end_time - start_time) <= timeout`, or it raises one of the exceptions the
source discriminates. -/
inductive ResolveOutcome where
  | answers (count : Nat) (withinTimeout : Bool)
  | timeout
  | noNameservers
  | noAnswer
  | otherError
deriving DecidableEq, Repr

/-- The exceptions distinguished by `test_dns_server`'s except-clauses:
`dns.exception.Timeout`, `dns.resolver.NoNameservers`, `dns.resolver.NoAnswer`,
and the catch-all `Exception`. -/
inductive DnsExn where
  | timeout
  | noNameservers
  | noAnswer
  | other
deriving DecidableEq, Repr

/-- Result of a Python call that either returns a value or raises. -/
inductive PyResult (α : Type) where
  | ok (val : α)
  | raised (e : DnsExn)
deriving DecidableEq, Repr

/-- The raw `resolver.resolve` call as seen through `ResolveOutcome`: the
exception cases raise. -/
def resolverResolve : ResolveOutcome → PyResult (Nat × Bool)
  | .answers n w => .ok (n, w)
  | .timeout => .raised .timeout
  | .noNameservers => .raised .noNameservers
  | .noAnswer => .raised .noAnswer
  | .otherError => .raised .other

/-- `test_dns_server` (lines 36–64): the try/except around the resolve call.
An answer set is truthy iff it holds at least one record, so the success branch
returns `answers and elapsed <= timeout`; `Timeout` and `NoNameservers` and the
catch-all return `False`; `NoAnswer` returns `True`. The result type `PyResult
Bool` records whether the function itself raises: no branch does. -/
def test_dns_server (o : ResolveOutcome) : PyResult Bool :=
  match resolverResolve o with
  | .ok (n, withinTimeout) => .ok (decide (0 < n) && withinTimeout)
  | .raised .timeout => .ok false
  | .raised .noNameservers => .ok false
  | .raised .noAnswer => .ok true
  | .raised .other => .ok false

/-- The future map of line 132: one `executor.submit(test_dns_server, ...)` per
element of `servers_to_test`, keyed by the (always fresh) future, so each
candidate entry is submitted exactly once, in input order. `probe` gives the
classified outcome of the single resolve attempt for an address. -/
def mkFutures (probe : String → ResolveOutcome) (servers : List Candidate) :
    List (Candidate × PyResult Bool) :=
  servers.map fun c => (c, test_dns_server (probe c.ip))

/-- The per-future status string computed in the aggregation loop. -/
inductive Status where
  | responsive
  | noResponse
  | error (e : DnsExn)
deriving DecidableEq, Repr

/-- State of the `as_completed` loop: `responsive_servers`, `tested_count`, and
the status computed for each completed future, in completion order. -/
structure AggState where
  responsive : List String
  tested : Nat
  statuses : List Status
deriving DecidableEq, Repr

/-- One iteration of the `as_completed` loop (lines 134–151): bump
`tested_count`; `future.result()` returning `True` appends the original line
and reports Responsive, `False` reports no response, and a raised exception is
caught and reported as an error without appending. -/
def stepFuture (st : AggState) (cf : Candidate × PyResult Bool) : AggState :=
  match cf.2 with
  | .ok true =>
      ⟨st.responsive ++ [cf.1.original_line], st.tested + 1,
        st.statuses ++ [.responsive]⟩
  | .ok false => ⟨st.responsive, st.tested + 1, st.statuses ++ [.noResponse]⟩
  | .raised e => ⟨st.responsive, st.tested + 1, st.statuses ++ [.error e]⟩

/-- The whole aggregation loop, run over the futures in completion order. -/
def aggregate (completed : List (Candidate × PyResult Bool)) : AggState :=
  completed.foldl stepFuture ⟨[], 0, []⟩

/-- Whether a future result counts as responsive in the loop. -/
def isResp : PyResult Bool → Bool
  | .ok true => true
  | _ => false

/-- The status the loop assigns to one future result. -/
def statusOf : PyResult Bool → Status
  | .ok true => .responsive
  | .ok false => .noResponse
  | .raised e => .error e

/-- Lexicographic comparison of code-point lists: Python string `<=`. -/
def lexLe : List Char → List Char → Bool
  | [], _ => true
  | _ :: _, [] => false
  | a :: as, b :: bs => if a < b then true else if b < a then false else lexLe as bs

/-- Python string comparison `s <= t` (lexicographic by code point). -/
def pyLe (s t : String) : Bool := lexLe s.data t.data

/-- `pyLe` as a relation, for the sorting lemmas. -/
def pyLeProp (a b : String) : Prop := pyLe a b = true

instance : DecidableRel pyLeProp := fun a b => instDecidableEqBool (pyLe a b) true

/-- `responsive_servers.sort()` (line 158): Python's sort is a stable
comparison sort; since string comparison is a total antisymmetric order, every
correct sort produces the same list, so insertion sort models it exactly. -/
def pySort (l : List String) : List String := List.insertionSort pyLeProp l

/-- The sorted result list built at line 158. -/
def resultSet (completed : List (Candidate × PyResult Bool)) : List String :=
  pySort (aggregate completed).responsive

/-- The bytes written to the output file (lines 163–165): each responsive line
followed by a newline, in sorted order. -/
def outputBytes (sorted : List String) : String :=
  String.join (sorted.map fun l => l ++ "\n")

/-- Outcome of opening and reading the input file. -/
inductive ReadResult where
  | ok (lines : List String)
  | fileNotFound
  | readError
deriving DecidableEq, Repr

/-- The lines obtained from the input file, when it was readable. -/
def readLines : ReadResult → List String
  | .ok lines => lines
  | _ => []

/-- Observable result of a run of `main`: the process exit status, the
addresses actually submitted for probing (in completion order), and the bytes
successfully written to the output file, if any. -/
structure RunResult where
  exitCode : Nat
  probedIps : List String
  written : Option String
deriving DecidableEq, Repr

/-- `main` (lines 82–169) with the completion order of the futures made
explicit: a failed read exits 1 before probing; an empty candidate list exits 0
before the executor is entered (nothing probed, nothing written); otherwise
every candidate is probed, and the run exits 1 on a write failure and 0 after a
successful write of the sorted responsive lines. `completed` is the futures
list in completion order; callers constrain it to a permutation of
`mkFutures probe servers`. -/
def mainRunWith (readRes : ReadResult) (_probe : String → ResolveOutcome)
    (completed : List (Candidate × PyResult Bool)) (writeFails : Bool) :
    RunResult :=
  match readRes with
  | .fileNotFound => ⟨1, [], none⟩
  | .readError => ⟨1, [], none⟩
  | .ok lines =>
      if (parseServers lines).isEmpty then ⟨0, [], none⟩
      else if writeFails then ⟨1, completed.map fun cf => cf.1.ip, none⟩
      else
        ⟨0, completed.map fun cf => cf.1.ip,
          some (outputBytes (resultSet completed))⟩

/-- `main` with the canonical (submission-order) completion order. -/
def mainRun (readRes : ReadResult) (probe : String → ResolveOutcome)
    (writeFails : Bool) : RunResult :=
  mainRunWith readRes probe (mkFutures probe (parseServers (readLines readRes)))
    writeFails

/-- Modelled from the spec: the leading whitespace-delimited token of a line
(spec section 8: the address "that is the line's leading whitespace-delimited
token"). Stated from the spec's words for comparison with
`parse_ip_from_line`. -/
def leadingToken (line : String) : String :=
  String.mk (line.data.takeWhile fun c => !isPySpace c)

/-! ### Order properties of the lexicographic comparison -/

theorem lexLe_total : ∀ a b : List Char, lexLe a b = true ∨ lexLe b a = true
  | [], _ => Or.inl rfl
  | _ :: _, [] => Or.inr rfl
  | a :: as, b :: bs => by
    by_cases hab : a < b
    · exact Or.inl (by simp [lexLe, hab])
    · by_cases hba : b < a
      · exact Or.inr (by simp [lexLe, hba])
      · rcases lexLe_total as bs with h | h
        · exact Or.inl (by simp [lexLe, hab, hba, h])
        · exact Or.inr (by simp [lexLe, hab, hba, h])

theorem lexLe_trans :
    ∀ a b c : List Char, lexLe a b = true → lexLe b c = true → lexLe a c = true
  | [], _, _, _, _ => rfl
  | _ :: _, [], _, h, _ => by simp [lexLe] at h
  | _ :: _, _ :: _, [], _, h => by simp [lexLe] at h
  | a :: as, b :: bs, c :: cs, h₁, h₂ => by
    by_cases hab : a < b
    · by_cases hbc : b < c
      · simp [lexLe, lt_trans hab hbc]
      · by_cases hcb : c < b
        · simp [lexLe, hbc, hcb] at h₂
        · have hbc' : b = c := le_antisymm (le_of_not_lt hcb) (le_of_not_lt hbc)
          simp [lexLe, hbc' ▸ hab]
    · by_cases hba : b < a
      · simp [lexLe, hab, hba] at h₁
      · have hab' : a = b := le_antisymm (le_of_not_lt hba) (le_of_not_lt hab)
        subst hab'
        by_cases hac : a < c
        · simp [lexLe, hac]
        · by_cases hca : c < a
          · simp [lexLe, hac, hca] at h₂
          · simp only [lexLe, if_neg hab, if_neg hba] at h₁
            simp only [lexLe, if_neg hac, if_neg hca] at h₂ ⊢
            exact lexLe_trans as bs cs h₁ h₂

theorem lexLe_antisymm :
    ∀ a b : List Char, lexLe a b = true → lexLe b a = true → a = b
  | [], [], _, _ => rfl
  | [], _ :: _, _, h => by simp [lexLe] at h
  | _ :: _, [], h, _ => by simp [lexLe] at h
  | a :: as, b :: bs, h₁, h₂ => by
    by_cases hab : a < b
    · simp [lexLe, lt_asymm hab, hab] at h₂
    · by_cases hba : b < a
      · simp [lexLe, hab, hba] at h₁
      · have hab' : a = b := le_antisymm (le_of_not_lt hba) (le_of_not_lt hab)
        simp only [lexLe, if_neg hab, if_neg hba] at h₁
        simp only [lexLe, if_neg hba, if_neg hab] at h₂
        exact hab' ▸ congrArg (a :: ·) (lexLe_antisymm as bs h₁ h₂)

theorem string_data_inj {s t : String} (h : s.data = t.data) : s = t := by
  cases s; cases t; exact congrArg String.mk (by simpa using h)

instance : IsTotal String pyLeProp :=
  ⟨fun a b => lexLe_total a.data b.data⟩

instance : IsTrans String pyLeProp :=
  ⟨fun a b c => lexLe_trans a.data b.data c.data⟩

instance : IsAntisymm String pyLeProp :=
  ⟨fun a b h₁ h₂ => string_data_inj (lexLe_antisymm a.data b.data h₁ h₂)⟩

theorem pySort_perm (l : List String) : (pySort l).Perm l :=
  List.perm_insertionSort pyLeProp l

theorem pySort_sorted (l : List String) : List.Sorted pyLeProp (pySort l) :=
  List.sorted_insertionSort pyLeProp l

theorem pySort_congr {l₁ l₂ : List String} (h : l₁.Perm l₂) :
    pySort l₁ = pySort l₂ :=
  List.eq_of_perm_of_sorted
    ((pySort_perm l₁).trans (h.trans (pySort_perm l₂).symm))
    (pySort_sorted l₁) (pySort_sorted l₂)

/-! ### Characterisation of the aggregation loop -/

theorem foldl_stepFuture (l : List (Candidate × PyResult Bool)) :
    ∀ init : AggState,
      l.foldl stepFuture init =
        ⟨init.responsive ++ (l.filter fun cf => isResp cf.2).map
            (fun cf => cf.1.original_line),
          init.tested + l.length,
          init.statuses ++ l.map fun cf => statusOf cf.2⟩ := by
  induction l with
  | nil => intro init; simp
  | cons cf rest ih =>
    intro init
    obtain ⟨c, r⟩ := cf
    rw [List.foldl_cons, ih]
    rcases r with b | e
    · cases b
      · simp only [stepFuture, List.filter_cons, isResp, statusOf, List.map_cons,
          List.length_cons, AggState.mk.injEq]
        refine ⟨by simp, by omega, by simp⟩
      · simp only [stepFuture, List.filter_cons, isResp, statusOf, List.map_cons,
          List.length_cons, AggState.mk.injEq]
        refine ⟨by simp, by omega, by simp⟩
    · simp only [stepFuture, List.filter_cons, isResp, statusOf, List.map_cons,
        List.length_cons, AggState.mk.injEq]
      refine ⟨by simp, by omega, by simp⟩

theorem aggregate_eq (l : List (Candidate × PyResult Bool)) :
    aggregate l =
      ⟨(l.filter fun cf => isResp cf.2).map (fun cf => cf.1.original_line),
        l.length, l.map fun cf => statusOf cf.2⟩ := by
  simpa using foldl_stepFuture l ⟨[], 0, []⟩

/-! ### Further helper lemmas -/

theorem resultSet_eq (completed : List (Candidate × PyResult Bool)) :
    resultSet completed =
      pySort ((completed.filter fun cf => isResp cf.2).map
        fun cf => cf.1.original_line) := by
  simp [resultSet, aggregate_eq]

theorem resultSet_congr {c₁ c₂ : List (Candidate × PyResult Bool)}
    (h : c₁.Perm c₂) : resultSet c₁ = resultSet c₂ := by
  rw [resultSet_eq, resultSet_eq]
  exact pySort_congr ((h.filter _).map _)

theorem lineCandidate_original {raw : String} {c : Candidate}
    (h : lineCandidate raw = some c) : c.original_line = pyStrip raw := by
  simp only [lineCandidate] at h
  split at h
  · exact absurd h (by simp)
  · split at h
    · cases h; rfl
    · exact absurd h (by simp)

theorem dropWhile_head_false {α : Type} (p : α → Bool) :
    ∀ (l : List α) (c : α) (rest : List α), l.dropWhile p = c :: rest → p c = false
  | [], c, rest, h => by simp at h
  | a :: l, c, rest, h => by
    by_cases ha : p a
    · rw [List.dropWhile_cons_of_pos ha] at h
      exact dropWhile_head_false p l c rest h
    · rw [List.dropWhile_cons_of_neg ha] at h
      cases h
      exact Bool.of_not_eq_true ha

theorem isIpChar_not_space {c : Char} (h : isIpChar c = true) : isPySpace c = false := by
  by_cases hs : isPySpace c = true
  · exfalso
    simp only [isPySpace, Bool.or_eq_true, decide_eq_true_eq] at hs
    rcases hs with ((((h1 | h1) | h1) | h1) | h1) | h1 <;>
      subst h1 <;> exact absurd h (by decide)
  · exact Bool.of_not_eq_true hs

theorem countP_partition {α : Type} (p : α → Bool) (l : List α) :
    l.countP p + l.countP (fun a => !(p a)) = l.length := by
  induction l with
  | nil => simp
  | cons a l ih =>
    cases hp : p a <;> simp [List.countP_cons, hp] <;> omega

theorem statusOf_test_not_error (o : ResolveOutcome) (e : DnsExn) :
    statusOf (test_dns_server o) ≠ Status.error e := by
  cases o with
  | answers n w =>
    cases hb : (decide (0 < n) && w) <;>
      simp [test_dns_server, resolverResolve, statusOf, hb]
  | timeout => simp [test_dns_server, resolverResolve, statusOf]
  | noNameservers => simp [test_dns_server, resolverResolve, statusOf]
  | noAnswer => simp [test_dns_server, resolverResolve, statusOf]
  | otherError => simp [test_dns_server, resolverResolve, statusOf]

/-! ### Concrete inputs used by the witnesses -/

def demoProbe : String → ResolveOutcome :=
  fun ip => if ip = "1.2.3.4" then .answers 1 true else .timeout

def demoServers : List Candidate :=
  [⟨"1.2.3.4", "1.2.3.4 alpha"⟩, ⟨"5.6.7.8", "5.6.7.8 beta"⟩]

/-! ### The claims -/

/-- Claim C1: in every completed run, each Candidate is submitted to the probe
exactly once (the futures map carries exactly one future per candidate entry,
with no retries) and yields exactly one outcome, so the number of outcomes
equals the number of candidates and the Responsive and NotResponsive counts
partition it. -/
theorem probe_once_and_cardinality (probe : String → ResolveOutcome)
    (servers : List Candidate) (completed : List (Candidate × PyResult Bool))
    (h : completed.Perm (mkFutures probe servers)) :
    (mkFutures probe servers).map Prod.fst = servers ∧
    (∀ c : Candidate,
      ((mkFutures probe servers).map Prod.fst).count c = servers.count c) ∧
    (aggregate completed).tested = servers.length ∧
    (aggregate completed).statuses.length = servers.length ∧
    ((aggregate completed).statuses.countP fun s => s == Status.responsive) +
      ((aggregate completed).statuses.countP fun s => !(s == Status.responsive))
      = servers.length := by
  have hfst : (mkFutures probe servers).map Prod.fst = servers := by
    simp [mkFutures, Function.comp_def]
  have hlen : completed.length = servers.length := by
    have := h.length_eq
    simpa [mkFutures] using this
  refine ⟨hfst, fun c => by rw [hfst], ?_, ?_, ?_⟩
  · rw [aggregate_eq]; exact hlen
  · rw [aggregate_eq]; simpa using hlen
  · have h2 := countP_partition (fun s => s == Status.responsive)
      ((aggregate completed).statuses)
    rw [h2, aggregate_eq]
    simpa using hlen

/-- Claim C1 witness: the theorem applied at a concrete probe, server list and
completion order. -/
theorem probe_once_and_cardinality_witness :
    (mkFutures demoProbe demoServers).map Prod.fst = demoServers ∧
    (∀ c : Candidate,
      ((mkFutures demoProbe demoServers).map Prod.fst).count c
        = demoServers.count c) ∧
    (aggregate (mkFutures demoProbe demoServers)).tested = demoServers.length ∧
    (aggregate (mkFutures demoProbe demoServers)).statuses.length
      = demoServers.length ∧
    ((aggregate (mkFutures demoProbe demoServers)).statuses.countP
        fun s => s == Status.responsive) +
      ((aggregate (mkFutures demoProbe demoServers)).statuses.countP
        fun s => !(s == Status.responsive))
      = demoServers.length :=
  probe_once_and_cardinality demoProbe demoServers
    (mkFutures demoProbe demoServers) (List.Perm.refl _)

/-- Claim C3: a probe whose query completes with an authoritative no-such-data
response (`dns.resolver.NoAnswer`) is classified Responsive: `test_dns_server`
returns `True` on that branch. -/
theorem noAnswer_is_responsive :
    test_dns_server ResolveOutcome.noAnswer = PyResult.ok true := rfl

/-- Claim C4: `test_dns_server` is total — every classified resolve outcome
yields a normally returned verdict, every failure mode (timeout, no
nameservers, catch-all) yields `False`, and consequently the `except` branch of
the aggregation loop is unreachable: no completed future ever carries a raised
exception, so no status is an error status. -/
theorem probe_failures_nonfatal (probe : String → ResolveOutcome)
    (servers : List Candidate) (completed : List (Candidate × PyResult Bool))
    (h : completed.Perm (mkFutures probe servers)) :
    (∀ o : ResolveOutcome, ∃ b : Bool, test_dns_server o = PyResult.ok b) ∧
    test_dns_server ResolveOutcome.timeout = PyResult.ok false ∧
    test_dns_server ResolveOutcome.noNameservers = PyResult.ok false ∧
    test_dns_server ResolveOutcome.otherError = PyResult.ok false ∧
    (∀ s ∈ (aggregate completed).statuses, ∀ e : DnsExn, s ≠ Status.error e) := by
  refine ⟨?_, rfl, rfl, rfl, ?_⟩
  · intro o
    cases o with
    | answers n w => exact ⟨decide (0 < n) && w, rfl⟩
    | timeout => exact ⟨false, rfl⟩
    | noNameservers => exact ⟨false, rfl⟩
    | noAnswer => exact ⟨true, rfl⟩
    | otherError => exact ⟨false, rfl⟩
  · intro s hs e
    rw [aggregate_eq] at hs
    simp only [List.mem_map] at hs
    obtain ⟨cf, hcf, hsf⟩ := hs
    have hcf' : cf ∈ mkFutures probe servers := h.mem_iff.mp hcf
    simp only [mkFutures, List.mem_map] at hcf'
    obtain ⟨c, _, hc⟩ := hcf'
    subst hsf
    rw [← hc]
    exact statusOf_test_not_error (probe c.ip) e

/-- Claim C4 witness: the theorem applied at a concrete probe, server list and
completion order. -/
theorem probe_failures_nonfatal_witness :
    (∀ o : ResolveOutcome, ∃ b : Bool, test_dns_server o = PyResult.ok b) ∧
    test_dns_server ResolveOutcome.timeout = PyResult.ok false ∧
    test_dns_server ResolveOutcome.noNameservers = PyResult.ok false ∧
    test_dns_server ResolveOutcome.otherError = PyResult.ok false ∧
    (∀ s ∈ (aggregate (mkFutures demoProbe demoServers)).statuses,
      ∀ e : DnsExn, s ≠ Status.error e) :=
  probe_failures_nonfatal demoProbe demoServers
    (mkFutures demoProbe demoServers) (List.Perm.refl _)

def demoLines : List String := ["5.6.7.8 beta", "1.2.3.4 alpha"]

/-- Claim C2: for every input and every order in which the probe futures
complete, the final ResultSet is lexicographically non-decreasing by line text,
and two runs that differ only in completion order produce the same output
sequence. -/
theorem resultSet_sorted_and_order_independent (probe : String → ResolveOutcome)
    (servers : List Candidate) (c₁ c₂ : List (Candidate × PyResult Bool))
    (h₁ : c₁.Perm (mkFutures probe servers))
    (h₂ : c₂.Perm (mkFutures probe servers)) :
    List.Sorted pyLeProp (resultSet c₁) ∧ resultSet c₁ = resultSet c₂ := by
  refine ⟨?_, resultSet_congr (h₁.trans h₂.symm)⟩
  rw [resultSet_eq]
  exact pySort_sorted _

/-- Claim C2 witness: two concrete completion orders of the same futures (one
the reverse of the other) give a sorted and identical ResultSet. -/
theorem resultSet_sorted_and_order_independent_witness :
    List.Sorted pyLeProp (resultSet ((mkFutures demoProbe demoServers).reverse)) ∧
    resultSet ((mkFutures demoProbe demoServers).reverse)
      = resultSet (mkFutures demoProbe demoServers) :=
  resultSet_sorted_and_order_independent demoProbe demoServers
    ((mkFutures demoProbe demoServers).reverse) (mkFutures demoProbe demoServers)
    (List.reverse_perm _) (List.Perm.refl _)

/-- Claim C9: with a deterministic Probe Client, two runs of the pipeline on
the same input — whatever completion orders their schedulers produce — yield
byte-identical output files and the same exit status. -/
theorem pipeline_two_run_determinism (lines : List String)
    (probe : String → ResolveOutcome) (writeFails : Bool)
    (c₁ c₂ : List (Candidate × PyResult Bool))
    (h₁ : c₁.Perm (mkFutures probe (parseServers lines)))
    (h₂ : c₂.Perm (mkFutures probe (parseServers lines))) :
    (mainRunWith (.ok lines) probe c₁ writeFails).written
      = (mainRunWith (.ok lines) probe c₂ writeFails).written ∧
    (mainRunWith (.ok lines) probe c₁ writeFails).exitCode
      = (mainRunWith (.ok lines) probe c₂ writeFails).exitCode := by
  have hres : resultSet c₁ = resultSet c₂ := resultSet_congr (h₁.trans h₂.symm)
  simp only [mainRunWith]
  split_ifs with he hw
  · exact ⟨rfl, rfl⟩
  · exact ⟨rfl, rfl⟩
  · exact ⟨by simp [hres], rfl⟩

/-- Claim C9 witness: the theorem applied to a concrete input with two
different concrete completion orders. -/
theorem pipeline_two_run_determinism_witness :
    (mainRunWith (.ok demoLines) demoProbe
        ((mkFutures demoProbe (parseServers demoLines)).reverse) false).written
      = (mainRunWith (.ok demoLines) demoProbe
          (mkFutures demoProbe (parseServers demoLines)) false).written ∧
    (mainRunWith (.ok demoLines) demoProbe
        ((mkFutures demoProbe (parseServers demoLines)).reverse) false).exitCode
      = (mainRunWith (.ok demoLines) demoProbe
          (mkFutures demoProbe (parseServers demoLines)) false).exitCode :=
  pipeline_two_run_determinism demoLines demoProbe false
    ((mkFutures demoProbe (parseServers demoLines)).reverse)
    (mkFutures demoProbe (parseServers demoLines))
    (List.reverse_perm _) (List.Perm.refl _)

/-- Claim C8: the process exits non-zero exactly on an unreadable input file or
a failing output write; an input that parses to zero candidates exits cleanly
with nothing probed and nothing written. -/
theorem exit_codes (probe : String → ResolveOutcome) (writeFails : Bool)
    (lines : List String) :
    (mainRun ReadResult.fileNotFound probe writeFails).exitCode = 1 ∧
    (mainRun ReadResult.readError probe writeFails).exitCode = 1 ∧
    (parseServers lines = [] →
      mainRun (.ok lines) probe writeFails = ⟨0, [], none⟩) ∧
    (parseServers lines ≠ [] →
      (mainRun (.ok lines) probe true).exitCode = 1) ∧
    (parseServers lines ≠ [] →
      (mainRun (.ok lines) probe false).exitCode = 0 ∧
      (mainRun (.ok lines) probe false).written ≠ none) := by
  refine ⟨rfl, rfl, ?_, ?_, ?_⟩
  · intro h
    simp [mainRun, mainRunWith, readLines, h]
  · intro h
    simp [mainRun, mainRunWith, readLines, List.isEmpty_iff, h]
  · intro h
    simp [mainRun, mainRunWith, readLines, List.isEmpty_iff, h]

/-- Claim C8 witness: concrete runs — a comment-only input exits 0 with no
probes and no write; a failing write exits 1; a successful run exits 0. -/
theorem exit_codes_witness :
    mainRun (.ok ["# comment only"]) demoProbe false = ⟨0, [], none⟩ ∧
    (mainRun (.ok ["1.2.3.4 alpha"]) demoProbe true).exitCode = 1 ∧
    (mainRun (.ok ["1.2.3.4 alpha"]) demoProbe false).exitCode = 0 :=
  ⟨(exit_codes demoProbe false ["# comment only"]).2.2.1 (by decide),
   (exit_codes demoProbe true ["1.2.3.4 alpha"]).2.2.2.1 (by decide),
   ((exit_codes demoProbe false ["1.2.3.4 alpha"]).2.2.2.2 (by decide)).1⟩

/-- Claim C5 counterexample: `main` strips each line before storing it, so an
input line carrying leading or trailing whitespace is not reproduced character
for character — the run on the single line with surrounding spaces writes the
stripped line, which differs from the original line with a newline appended. -/
theorem original_whitespace_not_preserved :
    (mainRun (.ok ["  1.2.3.4 alpha  "]) (fun _ => .answers 1 true) false).written
      = some ("1.2.3.4 alpha" ++ "\n") ∧
    ("1.2.3.4 alpha" ++ "\n") ≠ ("  1.2.3.4 alpha  " ++ "\n") := by
  exact ⟨by decide, by decide⟩

/-- Claim C5 as amended: for every Candidate classified Responsive, the output
line is the original input line after stripping leading and trailing
whitespace — interior text, including any trailing hostname/comment, preserved
character for character — with a newline appended, the file being the
concatenation of those lines in sorted order. -/
theorem responsive_lines_verbatim_after_strip (lines : List String)
    (probe : String → ResolveOutcome)
    (h : (parseServers lines).isEmpty = false) :
    (∀ s ∈ resultSet (mkFutures probe (parseServers lines)),
      ∃ raw ∈ lines, s = pyStrip raw) ∧
    (mainRun (.ok lines) probe false).written
      = some (String.join
          ((resultSet (mkFutures probe (parseServers lines))).map
            fun l => l ++ "\n")) := by
  constructor
  · intro s hs
    rw [resultSet_eq] at hs
    have hs' := (pySort_perm _).mem_iff.mp hs
    simp only [List.mem_map, List.mem_filter] at hs'
    obtain ⟨cf, ⟨hcf, _⟩, hline⟩ := hs'
    simp only [mkFutures, List.mem_map] at hcf
    obtain ⟨c, hcmem, hceq⟩ := hcf
    simp only [parseServers, List.mem_filterMap] at hcmem
    obtain ⟨raw, hraw, hrc⟩ := hcmem
    refine ⟨raw, hraw, ?_⟩
    rw [← hline, ← hceq]
    exact lineCandidate_original hrc
  · simp [mainRun, mainRunWith, readLines, h, outputBytes]

/-- Claim C5 amended-theorem witness: the concrete run on a padded input line
yields a line equal to the stripped input and the matching output bytes. -/
theorem responsive_lines_verbatim_after_strip_witness :
    (∀ s ∈ resultSet (mkFutures (fun _ => ResolveOutcome.answers 1 true)
        (parseServers ["  1.2.3.4 alpha  "])),
      ∃ raw ∈ ["  1.2.3.4 alpha  "], s = pyStrip raw) ∧
    (mainRun (.ok ["  1.2.3.4 alpha  "]) (fun _ => ResolveOutcome.answers 1 true)
        false).written
      = some (String.join
          ((resultSet (mkFutures (fun _ => ResolveOutcome.answers 1 true)
              (parseServers ["  1.2.3.4 alpha  "]))).map fun l => l ++ "\n")) :=
  responsive_lines_verbatim_after_strip ["  1.2.3.4 alpha  "]
    (fun _ => ResolveOutcome.answers 1 true) (by decide)

/-- Claim C10: a line that after stripping is a bare address token — nonempty,
not a comment, containing no whitespace at all — is rejected by the Address
Extractor (the regex requires trailing whitespace), yields no Candidate, and
produces the could-not-parse warning with its 1-based line number. -/
theorem bare_address_line_warned (i : Nat) (raw : String)
    (h1 : (pyStrip raw).data ≠ [])
    (h2 : startsWithHash (pyStrip raw) = false)
    (h3 : ∀ c ∈ (pyStrip raw).data, isPySpace c = false) :
    lineCandidate raw = none ∧ lineWarning i raw = some (i + 1, pyStrip raw) := by
  have hregex : regexIpMatch (pyStrip raw).data = none := by
    unfold regexIpMatch
    cases hd : (pyStrip raw).data.dropWhile isIpChar with
    | nil => simp [hd]
    | cons r rs =>
      have hrmem : r ∈ (pyStrip raw).data :=
        (List.dropWhile_sublist _).mem (by rw [hd]; exact List.mem_cons_self r rs)
      have hrs : isPySpace r = false := h3 r hrmem
      simp [hd, hrs]
  have hparse : parse_ip_from_line (pyStrip raw) = none := by
    unfold parse_ip_from_line
    rw [hregex]
  have hie : (pyStrip raw).data.isEmpty = false := by
    cases he : (pyStrip raw).data with
    | nil => exact absurd he h1
    | cons a l => rfl
  constructor
  · simp [lineCandidate, hie, h2, hparse]
  · simp [lineWarning, hie, h2, hparse]

/-- Claim C10 witness: a bare IP on a line by itself is skipped with a warning. -/
theorem bare_address_line_warned_witness :
    lineCandidate "8.8.8.8" = none ∧
    lineWarning 0 "8.8.8.8" = some (0 + 1, pyStrip "8.8.8.8") :=
  bare_address_line_warned 0 "8.8.8.8" (by decide) (by decide) (by decide)

theorem takeWhile_eq_of_class {α : Type} (p q : α → Bool)
    (hpq : ∀ c, p c = true → q c = true) :
    ∀ l : List α, (∀ c ∈ l.takeWhile q, p c = true) → l.takeWhile p = l.takeWhile q
  | [], _ => rfl
  | a :: l, h => by
    cases hq : q a with
    | true =>
      have hp : p a = true := by
        apply h
        rw [List.takeWhile_cons_of_pos hq]
        exact List.mem_cons_self a _
      rw [List.takeWhile_cons_of_pos hq, List.takeWhile_cons_of_pos hp]
      refine congrArg (a :: ·) (takeWhile_eq_of_class p q hpq l ?_)
      intro c hc
      apply h
      rw [List.takeWhile_cons_of_pos hq]
      exact List.mem_cons_of_mem a hc
    | false =>
      have hp : p a = false := by
        cases hpa : p a with
        | false => rfl
        | true => rw [hpq a hpa] at hq; cases hq
      rw [List.takeWhile_cons_of_neg (by simp [hp]),
        List.takeWhile_cons_of_neg (by simp [hq])]

theorem dropWhile_eq_of_takeWhile_eq {α : Type} {p q : α → Bool} {l : List α}
    (h : l.takeWhile p = l.takeWhile q) : l.dropWhile p = l.dropWhile q := by
  have h1 : l.takeWhile q ++ l.dropWhile p = l := by
    rw [← h]
    exact List.takeWhile_append_dropWhile p l
  have h2 := List.takeWhile_append_dropWhile q l
  exact List.append_cancel_left (h1.trans h2.symm)

/-- Claim C6 counterexample: the line whose leading whitespace-delimited token
is `1.2.3.4x` — a token that contains a `.` and is followed by a space — is
rejected by the Address Extractor (`None`), because the regex only admits
tokens over `[0-9a-fA-F:.]` and `x` is outside that class. -/
theorem leading_token_not_always_returned :
    leadingToken "1.2.3.4x foo" = "1.2.3.4x" ∧
    "1.2.3.4x".data.contains '.' = true ∧
    ("1.2.3.4x foo").data.drop ("1.2.3.4x".data.length) = ' ' :: "foo".data ∧
    parse_ip_from_line "1.2.3.4x foo" = none := by
  exact ⟨by decide, by decide, by decide, by decide⟩

/-- Claim C6 as amended: for every input line whose leading
whitespace-delimited token consists solely of characters from `[0-9a-fA-F:.]`,
contains a `.` or a `:`, and is followed by at least one whitespace character,
the Address Extractor returns exactly that leading token. -/
theorem extractor_returns_leading_token (line : String)
    (hclass : ∀ c ∈ (leadingToken line).data, isIpChar c = true)
    (hdot : (leadingToken line).data.contains '.' = true ∨
      (leadingToken line).data.contains ':' = true)
    (hrest : line.data.dropWhile (fun c => !isPySpace c) ≠ []) :
    parse_ip_from_line line = some (leadingToken line) := by
  have htok : line.data.takeWhile isIpChar
      = line.data.takeWhile (fun c => !isPySpace c) := by
    apply takeWhile_eq_of_class
    · intro c hc
      simp [isIpChar_not_space hc]
    · exact fun c hc => hclass c hc
  have hdrop : line.data.dropWhile isIpChar
      = line.data.dropWhile (fun c => !isPySpace c) :=
    dropWhile_eq_of_takeWhile_eq htok
  obtain ⟨r, rs, hr⟩ :
      ∃ r rs, line.data.dropWhile (fun c => !isPySpace c) = r :: rs := by
    cases hd : line.data.dropWhile (fun c => !isPySpace c) with
    | nil => exact absurd hd hrest
    | cons a l => exact ⟨a, l, rfl⟩
  have hrspace : isPySpace r = true := by
    have := dropWhile_head_false (fun c => !isPySpace c) line.data r rs hr
    simpa using this
  have htoknonempty :
      (line.data.takeWhile (fun c => !isPySpace c)).isEmpty = false := by
    rcases hdot with hd | hd <;>
    · cases he : line.data.takeWhile (fun c => !isPySpace c) with
      | nil =>
        exfalso
        have : (leadingToken line).data = [] := he
        rw [this] at hd
        cases hd
      | cons a l => rfl
  have hcontains : ((line.data.takeWhile fun c => !isPySpace c).contains '.' ||
      (line.data.takeWhile fun c => !isPySpace c).contains ':') = true := by
    rcases hdot with hd | hd
    · simp only [leadingToken] at hd
      simp only [Bool.or_eq_true]
      exact Or.inl hd
    · simp only [leadingToken] at hd
      simp only [Bool.or_eq_true]
      exact Or.inr hd
  unfold parse_ip_from_line regexIpMatch
  rw [hdrop, hr, htok]
  simp only [htoknonempty, hrspace, hcontains, Bool.false_eq_true, if_false,
    if_true, ite_true, ite_false]
  rfl

/-- Claim C6 amended-theorem witness: on a well-formed line the extractor
returns the leading token. -/
theorem extractor_returns_leading_token_witness :
    parse_ip_from_line "8.8.8.8 dns-a" = some (leadingToken "8.8.8.8 dns-a") :=
  extractor_returns_leading_token "8.8.8.8 dns-a" (by decide) (by decide)
    (by decide)

theorem resultSet_mkFutures_count (probe : String → ResolveOutcome)
    (cands : List Candidate) (s : String) :
    (resultSet (mkFutures probe cands)).count s
      = (((cands.filter fun c => isResp (test_dns_server (probe c.ip))).map
          fun c => c.original_line).count s) := by
  rw [resultSet_eq, (pySort_perm _).count_eq]
  congr 1
  rw [mkFutures, List.filter_map, List.map_map]
  rfl

theorem count_parseServers_le_lines (lines : List String) (s : String) :
    (((parseServers lines).map fun c => c.original_line).count s)
      ≤ ((lines.map pyStrip).count s) := by
  induction lines with
  | nil => simp [parseServers]
  | cons raw rest ih =>
    simp only [parseServers, List.filterMap_cons, List.map_cons] at *
    cases hlc : lineCandidate raw with
    | none =>
      refine le_trans ih ?_
      rw [List.count_cons]
      omega
    | some c =>
      rw [List.map_cons, List.count_cons, List.count_cons,
        lineCandidate_original hlc]
      omega

theorem count_filter_all (p : Candidate → Bool) (s : String) :
    ∀ cands : List Candidate,
      (∀ c ∈ cands, c.original_line = s → p c = true) →
      ((((cands.filter p).map fun c => c.original_line).count s)
        = ((cands.map fun c => c.original_line).count s))
  | [], _ => rfl
  | c :: rest, h => by
    have ih := count_filter_all p s rest fun d hd => h d (List.mem_cons_of_mem _ hd)
    by_cases hline : c.original_line = s
    · have hp : p c = true := h c (List.mem_cons_self _ _) hline
      rw [List.filter_cons, if_pos hp, List.map_cons, List.map_cons,
        List.count_cons, List.count_cons, ih]
    · by_cases hp : p c = true
      · rw [List.filter_cons, if_pos hp, List.map_cons, List.map_cons,
          List.count_cons, List.count_cons, ih]
      · rw [List.filter_cons, if_neg (by simp [hp]), List.map_cons,
          List.count_cons, ih]
        have hbeq : (c.original_line == s) = false := by simpa using hline
        rw [hbeq]
        simp

/-- Claim C7 counterexample: the ResultSet can contain duplicates — two
identical responsive input lines both appear in the output, so the no-duplicate
half of the claim is false on the code. -/
theorem result_set_can_contain_duplicates :
    resultSet (mkFutures (fun _ => ResolveOutcome.answers 1 true)
        (parseServers ["1.2.3.4 a", "1.2.3.4 a"]))
      = ["1.2.3.4 a", "1.2.3.4 a"] ∧
    ¬ (resultSet (mkFutures (fun _ => ResolveOutcome.answers 1 true)
        (parseServers ["1.2.3.4 a", "1.2.3.4 a"]))).Nodup := by
  exact ⟨by decide, by decide⟩

/-- Claim C7 as amended: duplicate input lines pass through rather than being
deduplicated — for each distinct line text, its multiplicity in the ResultSet
equals its multiplicity among responsive candidates, never exceeds its
multiplicity among the parsed candidates or among the stripped input lines, and
equals its candidate multiplicity whenever its candidates are all responsive
(so the ResultSet is free of duplicates only when the responsive input lines
are). -/
theorem result_multiplicity (lines : List String)
    (probe : String → ResolveOutcome) (s : String) :
    (resultSet (mkFutures probe (parseServers lines))).count s
      = ((((parseServers lines).filter
          fun c => isResp (test_dns_server (probe c.ip))).map
            fun c => c.original_line).count s) ∧
    (resultSet (mkFutures probe (parseServers lines))).count s
      ≤ (((parseServers lines).map fun c => c.original_line).count s) ∧
    (resultSet (mkFutures probe (parseServers lines))).count s
      ≤ ((lines.map pyStrip).count s) ∧
    ((∀ c ∈ parseServers lines, c.original_line = s →
        isResp (test_dns_server (probe c.ip)) = true) →
      (resultSet (mkFutures probe (parseServers lines))).count s
        = (((parseServers lines).map fun c => c.original_line).count s)) := by
  have hcount := resultSet_mkFutures_count probe (parseServers lines) s
  have hle : (resultSet (mkFutures probe (parseServers lines))).count s
      ≤ (((parseServers lines).map fun c => c.original_line).count s) := by
    rw [hcount]
    exact (((parseServers lines).filter_sublist).map _).count_le s
  refine ⟨hcount, hle, le_trans hle (count_parseServers_le_lines lines s), ?_⟩
  intro hall
  rw [hcount]
  exact count_filter_all _ s (parseServers lines) hall

/-- Claim C7 amended-theorem witness: with a duplicated responsive line, the
output multiplicity equals the input multiplicity (2). -/
theorem result_multiplicity_witness :
    (resultSet (mkFutures (fun _ => ResolveOutcome.answers 1 true)
        (parseServers ["1.2.3.4 a", "1.2.3.4 a"]))).count "1.2.3.4 a"
      = ((((parseServers ["1.2.3.4 a", "1.2.3.4 a"]).filter
          fun c => isResp (test_dns_server
            ((fun _ => ResolveOutcome.answers 1 true) c.ip))).map
            fun c => c.original_line).count "1.2.3.4 a") ∧
    (resultSet (mkFutures (fun _ => ResolveOutcome.answers 1 true)
        (parseServers ["1.2.3.4 a", "1.2.3.4 a"]))).count "1.2.3.4 a"
      ≤ (((parseServers ["1.2.3.4 a", "1.2.3.4 a"]).map
          fun c => c.original_line).count "1.2.3.4 a") ∧
    (resultSet (mkFutures (fun _ => ResolveOutcome.answers 1 true)
        (parseServers ["1.2.3.4 a", "1.2.3.4 a"]))).count "1.2.3.4 a"
      ≤ ((["1.2.3.4 a", "1.2.3.4 a"].map pyStrip).count "1.2.3.4 a") ∧
    ((∀ c ∈ parseServers ["1.2.3.4 a", "1.2.3.4 a"], c.original_line = "1.2.3.4 a" →
        isResp (test_dns_server
          ((fun _ => ResolveOutcome.answers 1 true) c.ip)) = true) →
      (resultSet (mkFutures (fun _ => ResolveOutcome.answers 1 true)
          (parseServers ["1.2.3.4 a", "1.2.3.4 a"]))).count "1.2.3.4 a"
        = (((parseServers ["1.2.3.4 a", "1.2.3.4 a"]).map
            fun c => c.original_line).count "1.2.3.4 a")) :=
  result_multiplicity ["1.2.3.4 a", "1.2.3.4 a"]
    (fun _ => ResolveOutcome.answers 1 true) "1.2.3.4 a"
